import Mathlib

/-!
Shallow embedding of `src/experiments/generalised_parity/generalised_parity_anode.py`.

Scalars are modelled as rationals.  A batch tensor is a list of rows
(`Mat`).  External collaborators (the torch layers `nn.Linear`/`nn.ELU`,
the `torchdiffeq` solver `odeint`, autograd/`loss.backward`, and the Adam
optimizer `optimizer.step`) are out of scope per the spec and are bundled
in the `Externals` structure as abstract capabilities; the script's own
logic (counter bookkeeping, augmentation, gathering, the training loop,
data generation, the results-array writes) is translated directly.

`odeint`'s keyword tolerances are modelled as `Option ℚ`: the training
call passes `rtol=args.tol, atol=args.tol` (two `some tol` arguments),
the test call at line 176 passes neither (`none`, i.e. library defaults).

`time.time()` is modelled as an ambient clock read stream `clock : ℕ → ℚ`;
the k-th iteration performs its start read at index `2*k` and its end read
at index `2*k + 1`.
-/

namespace SonodeParity

/-- A batch: list of rows of rationals. -/
abbrev Mat := List (List ℚ)

/-- `t.gather(1, ids)`: `out[i][j] = t[i][ids[i][j]]` (out-of-range reads
default to 0; the script only ever uses in-range indices). -/
def gatherRows (m : Mat) (ids : List (List ℕ)) : Mat :=
  List.zipWith (fun row idr => idr.map (fun j => row.getD j 0)) m ids

/-- Lines 104-105 / 172-173: `torch.arange(d).repeat(n, 1)` —
`n` identical rows `[0, 1, ..., d-1]`. -/
def makeIds (n d : ℕ) : List (List ℕ) :=
  List.replicate n (List.range d)

/-- Lines 96-97 / 168-169: `torch.cat((z0, zeros(·, extra_dim)), dim=1)`. -/
def augment (z : Mat) (e : ℕ) : Mat :=
  z.map (fun r => r ++ List.replicate e 0)

/-- Elementwise scalar multiple (`z0 * scale_factor`, line 91 / 164). -/
def scaleRows (s : ℚ) (m : Mat) : Mat :=
  m.map (fun r => r.map (fun x => x * s))

/-- Line 90 / 163: `np.random.rand(·, ·) * 2 - 1` applied to the raw
uniform draw (entries of `np.random.rand` lie in `[0, 1)`). -/
def rawZ0 (draw : Mat) : Mat :=
  draw.map (fun r => r.map (fun u => u * 2 - 1))

/-- Lines 90-97 (train) and 163-169 (test): from a raw uniform draw,
build the augmented inputs and the (un-augmented) targets.  The target
`zN = z0 * scale_factor` is computed before the zero columns are
appended to `z0`. -/
def genData (draw : Mat) (s : ℚ) (e : ℕ) : Mat × Mat :=
  let z0 := rawZ0 draw
  let zN := scaleRows s z0
  (augment z0 e, zN)

/-- The train and test datasets of one run: the same procedure `genData`
applied to two independent raw draws. -/
def experimentData (trainDraw testDraw : Mat) (s : ℚ) (e : ℕ) :
    (Mat × Mat) × (Mat × Mat) :=
  (genData trainDraw s e, genData testDraw s e)

/-- Line 88: `dim = args.data_dimension + args.extra_dim`. -/
def dim (dd e : ℕ) : ℕ := dd + e

/-- Total element count of a batch, as a rational (for the MSE mean). -/
def numel (m : Mat) : ℚ := ((m.map List.length).sum : ℕ)

/-- Sum of squared differences of two rows. -/
def sqErrRow (r1 r2 : List ℚ) : ℚ :=
  (List.zipWith (fun x y => (x - y) * (x - y)) r1 r2).sum

/-- `nn.MSELoss()`: mean of elementwise squared differences. -/
def mse (a b : Mat) : ℚ :=
  (List.zipWith sqErrRow a b).sum / numel a

/-- The external collaborators, abstract per the spec's scope:
torch layers with parameters of type `P`, the `odeint` solver (its
endpoint value and how many times it invokes the supplied function),
the function-invocation count of `loss.backward()` (nonzero in adjoint
mode, where the reverse-time solve calls the vector field), and the
optimizer update. `P` also carries Adam's internal moment state. -/
structure Externals (P : Type) where
  fc1 : P → Mat → Mat
  fc2 : P → Mat → Mat
  fc3 : P → Mat → Mat
  elu : Mat → Mat
  endpoint : P → Mat → ℚ → ℚ → Option ℚ → Option ℚ → Mat
  nevals : P → Mat → ℚ → ℚ → Option ℚ → Option ℚ → ℕ
  nevalsBwd : P → Mat → ℕ
  optStep : P → Mat → Mat → P

/-- Lines 40-47, `ODEfunc.forward(t, x)`: increment `self.nfe`, then
apply `fc3 ∘ elu ∘ fc2 ∘ elu ∘ fc1`.  Returns the new counter paired
with the derivative batch (`t` is ignored by the body). -/
def ODEfunc_forward {P : Type} (E : Externals P) (p : P) (nfe : ℕ)
    (t : ℚ) (x : Mat) : ℕ × Mat :=
  (nfe + 1, E.fc3 p (E.elu (E.fc2 p (E.elu (E.fc1 p x)))))

/-- The mutable state of an `ODEfunc` module: its parameters and its
`nfe` counter (line 38 initialises the counter to 0). -/
structure ODEfuncState (P : Type) where
  params : P
  nfe : ℕ

/-- The state of an `ODEBlock`: it owns one `ODEfunc`. -/
structure ODEBlockState (P : Type) where
  odefunc : ODEfuncState P

/-- Lines 63-65, the `nfe` property getter: forwards to the inner
`ODEfunc`'s counter. -/
def ODEBlock_nfe {P : Type} (b : ODEBlockState P) : ℕ :=
  b.odefunc.nfe

/-- Lines 67-69, the `nfe` property setter: writes the inner
`ODEfunc`'s counter. -/
def ODEBlock_setNfe {P : Type} (b : ODEBlockState P) (v : ℕ) :
    ODEBlockState P :=
  { b with odefunc := { b.odefunc with nfe := v } }

/-- Line 120: `feature_layers[0].nfe = 0`, via the property setter. -/
def resetNfe {P : Type} (b : ODEBlockState P) : ODEBlockState P :=
  ODEBlock_setNfe b 0

/-- The counter effect of one solver-driven invocation of
`ODEfunc.forward` (only the counter component matters here; the solver
chooses its own evaluation points). -/
def nfeStep {P : Type} (E : Externals P) (p : P) (x : Mat) (n : ℕ) : ℕ :=
  (ODEfunc_forward E p n 0 x).1

/-- Counter after a call `odeint(func, x, [t0, tN], rtol, atol)` that
starts from counter value `n`: the solver invokes `ODEfunc.forward`
`E.nevals ...` times, each invocation bumping the counter. -/
def odeintNfe {P : Type} (E : Externals P) (p : P) (x : Mat)
    (t0 tN : ℚ) (rtol atol : Option ℚ) (n : ℕ) : ℕ :=
  (nfeStep E p x)^[E.nevals p x t0 tN rtol atol] n

/-- Counter after `loss.backward()` starting from counter value `n`:
autograd invokes `ODEfunc.forward` `E.nevalsBwd ...` times (0 in direct
mode, positive in adjoint mode). -/
def bwdNfe {P : Type} (E : Externals P) (p : P) (x : Mat) (n : ℕ) : ℕ :=
  (nfeStep E p x)^[E.nevalsBwd p x] n

/-- Lines 58-61, `ODEBlock.forward(x)`:
`odeint(odefunc, x, [0, 1], rtol=args.tol, atol=args.tol)`, endpoint,
then `gather(1, indices)`. -/
def ODEBlock_forward {P : Type} (E : Externals P) (p : P) (tol : ℚ)
    (ids : List (List ℕ)) (x : Mat) : Mat :=
  gatherRows (E.endpoint p x 0 1 (some tol) (some tol)) ids

/-- Lines 176-177, the test-phase pipeline:
`odeint(model[0].odefunc, z0, torch.tensor([t0, tN]).float())` — note no
`rtol`/`atol` arguments — endpoint, then `gather(1, ids)`. -/
def testPred {P : Type} (E : Externals P) (p : P)
    (ids : List (List ℕ)) (x : Mat) : Mat :=
  gatherRows (E.endpoint p x 0 1 none none) ids

/-- The values produced by one pass through the loop body,
lines 119-135. -/
structure IterOut (P : Type) where
  st : ODEBlockState P
  pred : Mat
  loss : ℚ
  nfe : ℕ
  dur : ℚ

/-- One iteration of the training loop (lines 120-135):
reset the counter through the property setter, read the clock,
`pred_z = model(z0)` (the `ODEBlock` forward, which drives the solver and
bumps the counter), `loss = loss_func(pred_z, zN)`, `loss.backward()`
(bumping the counter again in adjoint mode), `optimizer.step()`, read the
clock, and record loss / counter / duration. -/
def trainIter {P : Type} (E : Externals P) (tol : ℚ) (z0 zN : Mat)
    (ids : List (List ℕ)) (clock : ℕ → ℚ) (itr : ℕ)
    (st0 : ODEBlockState P) : IterOut P :=
  let st1 := resetNfe st0
  let tStart := clock (2 * itr)
  let p := st1.odefunc.params
  let pred := ODEBlock_forward E p tol ids z0
  let nfeF := odeintNfe E p z0 0 1 (some tol) (some tol) (ODEBlock_nfe st1)
  let l := mse pred zN
  let nfeB := bwdNfe E p z0 nfeF
  let pNew := E.optStep p z0 zN
  let tEnd := clock (2 * itr + 1)
  { st := ⟨⟨pNew, nfeB⟩⟩, pred := pred, loss := l, nfe := nfeB,
    dur := tEnd - tStart }

/-- Everything the training loop leaves behind: the four recorded
sequences (`itr_arr`, `loss_arr`, `nfe_arr`, `time_arr`, lines 112-115
and 132-135), the final module state, and the surviving Python variable
`pred_z` from the last executed iteration. -/
structure TrainResult (P : Type) where
  itr_arr : List ℕ
  loss_arr : List ℚ
  nfe_arr : List ℕ
  time_arr : List ℚ
  finalState : ODEBlockState P
  lastPred : Mat

/-- The loop `for itr in range(1, niters + 1)` (lines 119-135), run for
`k` remaining iterations starting at iteration index `itr`; `lp` is the
current value of the Python variable `pred_z`. -/
def trainLoop {P : Type} (E : Externals P) (tol : ℚ) (z0 zN : Mat)
    (ids : List (List ℕ)) (clock : ℕ → ℚ) :
    ℕ → ℕ → ODEBlockState P → Mat → TrainResult P
  | 0, _, st, lp => ⟨[], [], [], [], st, lp⟩
  | k + 1, itr, st, lp =>
    let o := trainIter E tol z0 zN ids clock itr st
    let rest := trainLoop E tol z0 zN ids clock k (itr + 1) o.st o.pred
    ⟨itr :: rest.itr_arr, o.loss :: rest.loss_arr, o.nfe :: rest.nfe_arr,
      o.dur :: rest.time_arr, rest.finalState, rest.lastPred⟩

/-- The whole training phase: `niters` iterations starting from
iteration index 1, with a freshly constructed model (`ODEfunc.__init__`
sets `nfe = 0`, line 38). -/
def trainRun {P : Type} (E : Externals P) (p0 : P) (tol : ℚ)
    (z0 zN : Mat) (ids : List (List ℕ)) (clock : ℕ → ℚ)
    (niters : ℕ) : TrainResult P :=
  trainLoop E tol z0 zN ids clock niters 1 ⟨⟨p0, 0⟩⟩ []

/-- Line 149: `loss = loss_func(pred_z, zN)` — recomputed from the
*stored* last-iteration prediction `pred_z`, not from a fresh forward
pass with the post-update parameters. -/
def finalTrainLoss {P : Type} (r : TrainResult P) (zN : Mat) : ℚ :=
  mse r.lastPred zN

/-- The parameter value held at the start of iteration `k` (0-based):
`k` optimizer updates applied to the initial parameters. -/
def paramAt {P : Type} (E : Externals P) (z0 zN : Mat) (p0 : P)
    (k : ℕ) : P :=
  (fun p => E.optStep p z0 zN)^[k] p0

/-- Lines 79-82: the artifact directory name. -/
def filename (e : ℕ) : String :=
  if e = 0 then "node./" else "anode./"

/-- Lines 142-145: the augmentation-flag index into the results array. -/
def first_index (e : ℕ) : ℕ :=
  if e = 0 then 0 else 1

/-- The shared `results.npy` array, modelled as a total map from the
four indices to a value. -/
def Results : Type := ℕ → ℕ → ℕ → ℕ → ℚ

/-- A single in-place cell assignment `R[a][b][c][d] = v`. -/
def setCell (R : Results) (a b c d : ℕ) (v : ℚ) : Results :=
  fun i j k l => if i = a ∧ j = b ∧ k = c ∧ l = d then v else R i j k l

/-- Lines 150 and 181: the two writes a run performs on the results
array — `results[first_index][0][data_dimension-1][experiment_no-1] =
trainL` then `results[first_index][1][data_dimension-1][experiment_no-1]
= testL`. -/
def writeLosses (R : Results) (e dd eno : ℕ) (trainL testL : ℚ) :
    Results :=
  setCell (setCell R (first_index e) 0 (dd - 1) (eno - 1) trainL)
    (first_index e) 1 (dd - 1) (eno - 1) testL

/-! ### Helper lemmas -/

theorem nfeStep_iterate {P : Type} (E : Externals P) (p : P) (x : Mat)
    (k n : ℕ) : (nfeStep E p x)^[k] n = n + k := by
  induction k with
  | zero => simp
  | succ k ih =>
    rw [Function.iterate_succ_apply', ih]
    simp only [nfeStep, ODEfunc_forward]
    omega

theorem trainIter_nfe {P : Type} (E : Externals P) (tol : ℚ)
    (z0 zN : Mat) (ids : List (List ℕ)) (clock : ℕ → ℚ) (itr : ℕ)
    (st0 : ODEBlockState P) :
    (trainIter E tol z0 zN ids clock itr st0).nfe
      = E.nevals st0.odefunc.params z0 0 1 (some tol) (some tol)
        + E.nevalsBwd st0.odefunc.params z0 := by
  simp [trainIter, bwdNfe, odeintNfe, nfeStep_iterate, resetNfe,
    ODEBlock_setNfe, ODEBlock_nfe]

theorem trainLoop_itr_arr {P : Type} (E : Externals P) (tol : ℚ)
    (z0 zN : Mat) (ids : List (List ℕ)) (clock : ℕ → ℚ) :
    ∀ (k itr : ℕ) (st : ODEBlockState P) (lp : Mat),
      (trainLoop E tol z0 zN ids clock k itr st lp).itr_arr
        = List.range' itr k := by
  intro k
  induction k with
  | zero => intro itr st lp; rfl
  | succ k ih =>
    intro itr st lp
    simp [trainLoop, ih, List.range']

theorem trainLoop_lengths {P : Type} (E : Externals P) (tol : ℚ)
    (z0 zN : Mat) (ids : List (List ℕ)) (clock : ℕ → ℚ) :
    ∀ (k itr : ℕ) (st : ODEBlockState P) (lp : Mat),
      (trainLoop E tol z0 zN ids clock k itr st lp).itr_arr.length = k
      ∧ (trainLoop E tol z0 zN ids clock k itr st lp).loss_arr.length = k
      ∧ (trainLoop E tol z0 zN ids clock k itr st lp).nfe_arr.length = k
      ∧ (trainLoop E tol z0 zN ids clock k itr st lp).time_arr.length
          = k := by
  intro k
  induction k with
  | zero => intro itr st lp; exact ⟨rfl, rfl, rfl, rfl⟩
  | succ k ih =>
    intro itr st lp
    obtain ⟨h1, h2, h3, h4⟩ := ih (itr + 1)
      (trainIter E tol z0 zN ids clock itr st).st
      (trainIter E tol z0 zN ids clock itr st).pred
    simp [trainLoop, h1, h2, h3, h4]

theorem trainLoop_last_loss {P : Type} (E : Externals P) (tol : ℚ)
    (z0 zN : Mat) (ids : List (List ℕ)) (clock : ℕ → ℚ) :
    ∀ (k itr : ℕ) (st : ODEBlockState P) (lp : Mat), 1 ≤ k →
      (trainLoop E tol z0 zN ids clock k itr st lp).loss_arr.getD
          (k - 1) 0
        = mse (trainLoop E tol z0 zN ids clock k itr st lp).lastPred
            zN := by
  intro k
  induction k with
  | zero => intro itr st lp h; exact absurd h (by omega)
  | succ k ih =>
    intro itr st lp _
    cases k with
    | zero => simp [trainLoop, trainIter]
    | succ j =>
      have h := ih (itr + 1) (trainIter E tol z0 zN ids clock itr st).st
        (trainIter E tol z0 zN ids clock itr st).pred (by omega)
      simpa [trainLoop] using h

theorem trainLoop_clock_eq {P : Type} (E : Externals P) (tol : ℚ)
    (z0 zN : Mat) (ids : List (List ℕ)) (c1 c2 : ℕ → ℚ) :
    ∀ (k itr : ℕ) (st : ODEBlockState P) (lp : Mat),
      (trainLoop E tol z0 zN ids c1 k itr st lp).itr_arr
          = (trainLoop E tol z0 zN ids c2 k itr st lp).itr_arr
      ∧ (trainLoop E tol z0 zN ids c1 k itr st lp).loss_arr
          = (trainLoop E tol z0 zN ids c2 k itr st lp).loss_arr
      ∧ (trainLoop E tol z0 zN ids c1 k itr st lp).nfe_arr
          = (trainLoop E tol z0 zN ids c2 k itr st lp).nfe_arr := by
  intro k
  induction k with
  | zero => intro itr st lp; exact ⟨rfl, rfl, rfl⟩
  | succ k ih =>
    intro itr st lp
    obtain ⟨h1, h2, h3⟩ := ih (itr + 1)
      (trainIter E tol z0 zN ids c2 itr st).st
      (trainIter E tol z0 zN ids c2 itr st).pred
    exact ⟨congrArg (itr :: ·) h1, congrArg (_ :: ·) h2,
      congrArg (_ :: ·) h3⟩

theorem trainLoop_nfe_arr_getD {P : Type} (E : Externals P) (tol : ℚ)
    (z0 zN : Mat) (ids : List (List ℕ)) (clock : ℕ → ℚ) :
    ∀ (k n itr : ℕ) (p : P) (m : ℕ) (lp : Mat), k < n →
      (trainLoop E tol z0 zN ids clock n itr ⟨⟨p, m⟩⟩ lp).nfe_arr.getD
          k 0
        = E.nevals (paramAt E z0 zN p k) z0 0 1 (some tol) (some tol)
          + E.nevalsBwd (paramAt E z0 zN p k) z0 := by
  intro k
  induction k with
  | zero =>
    intro n itr p m lp hk
    cases n with
    | zero => omega
    | succ n =>
      have h := trainIter_nfe E tol z0 zN ids clock itr
        (⟨⟨p, m⟩⟩ : ODEBlockState P)
      simp [trainLoop, paramAt, h]
  | succ k ih =>
    intro n itr p m lp hk
    cases n with
    | zero => omega
    | succ n =>
      have h := ih n (itr + 1) (E.optStep p z0 zN)
        (bwdNfe E p z0
          (odeintNfe E p z0 0 1 (some tol) (some tol) 0))
        (trainIter E tol z0 zN ids clock itr
          (⟨⟨p, m⟩⟩ : ODEBlockState P)).pred (by omega)
      have hparam : paramAt E z0 zN p (k + 1)
          = paramAt E z0 zN (E.optStep p z0 zN) k :=
        Function.iterate_succ_apply _ _ _
      rw [hparam]
      simpa [trainLoop] using h

theorem augment_width (z : Mat) (e d : ℕ) (h : ∀ r ∈ z, r.length = d) :
    ∀ r ∈ augment z e, r.length = d + e := by
  intro r hr
  simp only [augment, List.mem_map] at hr
  obtain ⟨a, ha, rfl⟩ := hr
  simp [h a ha]

theorem rawZ0_width (draw : Mat) (d : ℕ)
    (h : ∀ r ∈ draw, r.length = d) :
    ∀ r ∈ rawZ0 draw, r.length = d := by
  intro r hr
  simp only [rawZ0, List.mem_map] at hr
  obtain ⟨a, ha, rfl⟩ := hr
  simp [h a ha]

theorem scaleRows_width (s : ℚ) (m : Mat) (d : ℕ)
    (h : ∀ r ∈ m, r.length = d) :
    ∀ r ∈ scaleRows s m, r.length = d := by
  intro r hr
  simp only [scaleRows, List.mem_map] at hr
  obtain ⟨a, ha, rfl⟩ := hr
  simp [h a ha]

theorem gatherRows_width (m : Mat) (n d : ℕ) :
    ∀ r ∈ gatherRows m (makeIds n d), r.length = d := by
  induction m generalizing n with
  | nil => intro r hr; simp [gatherRows] at hr
  | cons row mtl ih =>
    intro r hr
    cases n with
    | zero => simp [gatherRows, makeIds] at hr
    | succ n =>
      rw [makeIds, List.replicate_succ] at hr
      simp only [gatherRows, List.zipWith_cons_cons, List.mem_cons]
        at hr
      rcases hr with rfl | hr
      · simp
      · exact ih n r hr

theorem rawZ0_mem_Icc (draw : Mat)
    (h : ∀ r ∈ draw, ∀ u ∈ r, 0 ≤ u ∧ u < 1) :
    ∀ r ∈ rawZ0 draw, ∀ x ∈ r, -1 ≤ x ∧ x ≤ 1 := by
  intro r hr x hx
  simp only [rawZ0, List.mem_map] at hr
  obtain ⟨a, ha, rfl⟩ := hr
  simp only [List.mem_map] at hx
  obtain ⟨u, hu, rfl⟩ := hx
  obtain ⟨h0, h1⟩ := h a ha u hu
  constructor <;> linarith

/-! ### Concrete instantiations used by counterexamples and witnesses -/

/-- A concrete instantiation of the external collaborators with trivial
layers, a solver that returns the input state unchanged after 2 function
evaluations, one backward-pass evaluation, and an identity optimizer. -/
def extUnit : Externals Unit where
  fc1 := fun _ x => x
  fc2 := fun _ x => x
  fc3 := fun _ x => x
  elu := fun x => x
  endpoint := fun _ x _ _ _ _ => x
  nevals := fun _ _ _ _ _ _ => 2
  nevalsBwd := fun _ _ => 1
  optStep := fun p _ _ => p

/-- A concrete solver instantiation whose endpoint depends on whether a
tolerance argument was passed (as any adaptive-step solver's result in
general does). -/
def extTolSensitive : Externals Unit where
  fc1 := fun _ x => x
  fc2 := fun _ x => x
  fc3 := fun _ x => x
  elu := fun x => x
  endpoint := fun _ x _ _ rtol _ =>
    match rtol with
    | none => x
    | some _ => scaleRows 2 x
  nevals := fun _ _ _ _ _ _ => 2
  nevalsBwd := fun _ _ => 0
  optStep := fun p _ _ => p

/-! ### Claim theorems -/

/-- C1 counterexample: the claim that the test-phase evaluation passes
`rtol = atol = tol` — i.e. computes the same function of (parameters,
initial state) as `ODEBlock.forward` — fails on the code: line 176 calls
`odeint` without tolerance arguments, so for a solver whose endpoint
depends on the tolerance arguments the two pipelines disagree at
`tol = 1/1000` on the state `[[1]]`. -/
theorem claim1_counterexample :
    testPred extTolSensitive () [[0]] [[1]]
      ≠ ODEBlock_forward extTolSensitive () (1 / 1000) [[0]] [[1]] := by
  norm_num [testPred, ODEBlock_forward, extTolSensitive, gatherRows,
    scaleRows]

/-- C1 (amended): the test-phase pipeline integrates the same vector
field over the same time pair (0, 1) and gathers the same selector
columns, but passes no tolerance arguments to the solver (the library
defaults apply) instead of `rtol = atol = tol`; it computes the same
function as `ODEBlock.forward` for exactly those solvers whose endpoint
does not depend on the tolerance arguments. -/
theorem claim1_test_matches_train_for_tolerance_insensitive_solvers
    {P : Type} (E : Externals P)
    (hins : ∀ (p : P) (x : Mat) (t0 tN : ℚ) (r1 a1 r2 a2 : Option ℚ),
      E.endpoint p x t0 tN r1 a1 = E.endpoint p x t0 tN r2 a2)
    (p : P) (tol : ℚ) (ids : List (List ℕ)) (x : Mat) :
    testPred E p ids x = ODEBlock_forward E p tol ids x := by
  unfold testPred ODEBlock_forward
  rw [hins p x 0 1 none none (some tol) (some tol)]

/-- Witness for the amended C1 at a concrete tolerance-insensitive
solver instantiation. -/
theorem claim1_amended_witness :
    (∀ (p : Unit) (x : Mat) (t0 tN : ℚ) (r1 a1 r2 a2 : Option ℚ),
      extUnit.endpoint p x t0 tN r1 a1
        = extUnit.endpoint p x t0 tN r2 a2)
    ∧ testPred extUnit () [[0]] [[1]]
        = ODEBlock_forward extUnit () (1 / 1000) [[0]] [[1]] :=
  ⟨fun _ _ _ _ _ _ _ _ => rfl,
    claim1_test_matches_train_for_tolerance_insensitive_solvers extUnit
      (fun _ _ _ _ _ _ _ _ => rfl) () (1 / 1000) [[0]] [[1]]⟩

/-- C2: the reported final training loss (line 149) is computed from the
stored last-iteration prediction `pred_z` (made before the final
optimizer step), and it equals the entry recorded in `loss_arr` at index
`niters - 1`. -/
theorem claim2_final_loss_is_last_recorded {P : Type} (E : Externals P)
    (p0 : P) (tol : ℚ) (z0 zN : Mat) (ids : List (List ℕ))
    (clock : ℕ → ℚ) (niters : ℕ) (h : 1 ≤ niters) :
    finalTrainLoss (trainRun E p0 tol z0 zN ids clock niters) zN
      = (trainRun E p0 tol z0 zN ids clock niters).loss_arr.getD
          (niters - 1) 0 := by
  unfold trainRun finalTrainLoss
  exact (trainLoop_last_loss E tol z0 zN ids clock niters 1 _ _ h).symm

/-- Witness for C2 at a concrete one-iteration run. -/
theorem claim2_witness :
    1 ≤ 1
    ∧ finalTrainLoss
          (trainRun extUnit () 1 [[1]] [[1]] [[0]] (fun _ => 0) 1) [[1]]
        = (trainRun extUnit () 1 [[1]] [[1]] [[0]]
            (fun _ => 0) 1).loss_arr.getD (1 - 1) 0 :=
  ⟨Nat.le_refl 1,
    claim2_final_loss_is_last_recorded extUnit () 1 [[1]] [[1]] [[0]]
      (fun _ => 0) 1 (Nat.le_refl 1)⟩

/-- C3: the augmented state batch fed to the vector field has row width
`data_dimension + extra_dim` (line 88's `dim`), and the gather step's
output rows always have width `data_dimension`, regardless of
`extra_dim`. -/
theorem claim3_widths (dd e n : ℕ) (draw : Mat) (s : ℚ) (m : Mat)
    (h : ∀ r ∈ draw, r.length = dd) :
    (∀ r ∈ (genData draw s e).1, r.length = dim dd e)
    ∧ (∀ r ∈ gatherRows m (makeIds n dd), r.length = dd) := by
  constructor
  · exact augment_width _ e dd (rawZ0_width draw dd h)
  · exact gatherRows_width m n dd

/-- Witness for C3 at a concrete draw, `data_dimension = 1`,
`extra_dim = 2`. -/
theorem claim3_witness :
    (∀ r ∈ ([[(1 : ℚ) / 2]] : Mat), r.length = 1)
    ∧ ((∀ r ∈ (genData [[(1 : ℚ) / 2]] 3 2).1, r.length = dim 1 2)
      ∧ (∀ r ∈ gatherRows [[5, 6, 7]] (makeIds 1 1), r.length = 1)) :=
  ⟨by decide, claim3_widths 1 2 1 [[(1 : ℚ) / 2]] 3 [[5, 6, 7]]
    (by decide)⟩

/-- C4: training data generation maps the raw uniform draw into
`[-1, 1]`, sets the target `zN = scale_factor * z0` from the
un-augmented `z0` (target width stays `data_dimension`), and only then
appends `extra_dim` zero columns to `z0`; the test data is produced by
the identical procedure applied to an independent draw. -/
theorem claim4_data_generation (trainDraw testDraw : Mat) (s : ℚ)
    (dd e : ℕ)
    (hw : ∀ r ∈ trainDraw, r.length = dd)
    (hu : ∀ r ∈ trainDraw, ∀ u ∈ r, 0 ≤ u ∧ u < 1) :
    (experimentData trainDraw testDraw s e).1 = genData trainDraw s e
    ∧ (experimentData trainDraw testDraw s e).2 = genData testDraw s e
    ∧ (genData trainDraw s e).2 = scaleRows s (rawZ0 trainDraw)
    ∧ (genData trainDraw s e).1 = augment (rawZ0 trainDraw) e
    ∧ (genData trainDraw s e).1.length = trainDraw.length
    ∧ (∀ r ∈ (genData trainDraw s e).2, r.length = dd)
    ∧ (∀ r ∈ (genData trainDraw s e).1, r.length = dd + e)
    ∧ (∀ r ∈ rawZ0 trainDraw, ∀ x ∈ r, -1 ≤ x ∧ x ≤ 1) := by
  refine ⟨rfl, rfl, rfl, rfl, ?_, ?_, ?_, rawZ0_mem_Icc trainDraw hu⟩
  · simp [genData, augment, rawZ0]
  · exact scaleRows_width s _ dd (rawZ0_width trainDraw dd hw)
  · exact augment_width _ e dd (rawZ0_width trainDraw dd hw)

/-- Witness for C4 at a concrete pair of draws. -/
theorem claim4_witness :
    (∀ r ∈ ([[(1 : ℚ) / 4]] : Mat), r.length = 1)
    ∧ (∀ r ∈ ([[(1 : ℚ) / 4]] : Mat), ∀ u ∈ r, 0 ≤ u ∧ u < 1)
    ∧ ((experimentData [[(1 : ℚ) / 4]] [[(3 : ℚ) / 4]] (-1) 1).1
          = genData [[(1 : ℚ) / 4]] (-1) 1
      ∧ (experimentData [[(1 : ℚ) / 4]] [[(3 : ℚ) / 4]] (-1) 1).2
          = genData [[(3 : ℚ) / 4]] (-1) 1
      ∧ (genData [[(1 : ℚ) / 4]] (-1) 1).2
          = scaleRows (-1) (rawZ0 [[(1 : ℚ) / 4]])
      ∧ (genData [[(1 : ℚ) / 4]] (-1) 1).1
          = augment (rawZ0 [[(1 : ℚ) / 4]]) 1
      ∧ (genData [[(1 : ℚ) / 4]] (-1) 1).1.length
          = ([[(1 : ℚ) / 4]] : Mat).length
      ∧ (∀ r ∈ (genData [[(1 : ℚ) / 4]] (-1) 1).2, r.length = 1)
      ∧ (∀ r ∈ (genData [[(1 : ℚ) / 4]] (-1) 1).1, r.length = 1 + 1)
      ∧ (∀ r ∈ rawZ0 [[(1 : ℚ) / 4]], ∀ x ∈ r, -1 ≤ x ∧ x ≤ 1)) :=
  ⟨by decide,
    by
      intro r hr u hu
      simp only [List.mem_singleton] at hr
      subst hr
      simp only [List.mem_singleton] at hu
      subst hu
      norm_num,
    claim4_data_generation [[(1 : ℚ) / 4]] [[(3 : ℚ) / 4]] (-1) 1 1
      (by decide)
      (by
        intro r hr u hu
        simp only [List.mem_singleton] at hr
        subst hr
        simp only [List.mem_singleton] at hu
        subst hu
        norm_num)⟩

/-- C5: a run writes exactly the two cells
`[first_index][0][data_dimension-1][experiment_no-1]` (train loss) and
`[first_index][1][data_dimension-1][experiment_no-1]` (test loss) of the
shared results array; every other cell keeps its original value. -/
theorem claim5_results_frame (R : Results) (e dd eno : ℕ)
    (trainL testL : ℚ) (i j k l : ℕ)
    (h1 : ¬(i = first_index e ∧ j = 0 ∧ k = dd - 1 ∧ l = eno - 1))
    (h2 : ¬(i = first_index e ∧ j = 1 ∧ k = dd - 1 ∧ l = eno - 1)) :
    writeLosses R e dd eno trainL testL (first_index e) 0 (dd - 1)
        (eno - 1) = trainL
    ∧ writeLosses R e dd eno trainL testL (first_index e) 1 (dd - 1)
        (eno - 1) = testL
    ∧ writeLosses R e dd eno trainL testL i j k l = R i j k l := by
  refine ⟨?_, ?_, ?_⟩
  · unfold writeLosses setCell
    rw [if_neg (by simp), if_pos ⟨rfl, rfl, rfl, rfl⟩]
  · unfold writeLosses setCell
    rw [if_pos ⟨rfl, rfl, rfl, rfl⟩]
  · unfold writeLosses setCell
    rw [if_neg h2, if_neg h1]

/-- Witness for C5 at a concrete configuration and a concrete
untouched cell. -/
theorem claim5_witness :
    ¬((0 : ℕ) = first_index 1 ∧ (0 : ℕ) = 0 ∧ (0 : ℕ) = 1 - 1
        ∧ (0 : ℕ) = 1 - 1)
    ∧ ¬((0 : ℕ) = first_index 1 ∧ (0 : ℕ) = 1 ∧ (0 : ℕ) = 1 - 1
        ∧ (0 : ℕ) = 1 - 1)
    ∧ (writeLosses (fun _ _ _ _ => 7) 1 1 1 3 4 (first_index 1) 0
          (1 - 1) (1 - 1) = 3
      ∧ writeLosses (fun _ _ _ _ => 7) 1 1 1 3 4 (first_index 1) 1
          (1 - 1) (1 - 1) = 4
      ∧ writeLosses (fun _ _ _ _ => 7) 1 1 1 3 4 0 0 0 0
          = (fun _ _ _ _ => (7 : ℚ)) 0 0 0 0) :=
  ⟨by decide, by decide,
    claim5_results_frame (fun _ _ _ _ => 7) 1 1 1 3 4 0 0 0 0
      (by decide) (by decide)⟩

/-- C6: a plain run (`extra_dim = 0`) and an augmented run
(`extra_dim > 0`) use distinct artifact directories and distinct
augmentation-flag slots of the results structure. -/
theorem claim6_disjoint_artifacts (e : ℕ) (h : 0 < e) :
    filename 0 ≠ filename e
    ∧ first_index 0 = 0
    ∧ first_index e = 1
    ∧ first_index 0 ≠ first_index e := by
  have he : e ≠ 0 := by omega
  refine ⟨?_, rfl, ?_, ?_⟩
  · unfold filename
    rw [if_pos rfl, if_neg he]
    decide
  · unfold first_index
    rw [if_neg he]
  · unfold first_index
    rw [if_pos rfl, if_neg he]
    decide

/-- Witness for C6 at `extra_dim = 1`. -/
theorem claim6_witness :
    0 < 1
    ∧ (filename 0 ≠ filename 1
      ∧ first_index 0 = 0
      ∧ first_index 1 = 1
      ∧ first_index 0 ≠ first_index 1) :=
  ⟨Nat.zero_lt_one, claim6_disjoint_artifacts 1 Nat.zero_lt_one⟩

/-- C7: every invocation of `ODEfunc.forward` increments the counter by
exactly one; the `ODEBlock` `nfe` property reads and writes the inner
`ODEfunc`'s counter; the reset at the start of each training iteration
zeroes the counter before the forward pass, so the recorded value does
not depend on the counter value carried in from the previous
iteration. -/
theorem claim7_nfe_counter {P : Type} (E : Externals P) (p : P)
    (n : ℕ) (t : ℚ) (x : Mat) (b : ODEBlockState P) (v : ℕ)
    (tol : ℚ) (z0 zN : Mat) (ids : List (List ℕ)) (clock : ℕ → ℚ)
    (itr : ℕ) (q : P) (n1 n2 : ℕ) :
    (ODEfunc_forward E p n t x).1 = n + 1
    ∧ ODEBlock_nfe b = b.odefunc.nfe
    ∧ (ODEBlock_setNfe b v).odefunc.nfe = v
    ∧ ODEBlock_nfe (resetNfe b) = 0
    ∧ (trainIter E tol z0 zN ids clock itr ⟨⟨q, n1⟩⟩).nfe
        = (trainIter E tol z0 zN ids clock itr ⟨⟨q, n2⟩⟩).nfe := by
  refine ⟨rfl, rfl, rfl, rfl, ?_⟩
  rw [trainIter_nfe, trainIter_nfe]

/-- C8: training performs exactly `niters` iterations; the four recorded
sequences all have length `niters`, and the iteration sequence is
`1, 2, ..., niters` in order. -/
theorem claim8_loop_structure {P : Type} (E : Externals P) (p0 : P)
    (tol : ℚ) (z0 zN : Mat) (ids : List (List ℕ)) (clock : ℕ → ℚ)
    (niters : ℕ) :
    (trainRun E p0 tol z0 zN ids clock niters).itr_arr.length = niters
    ∧ (trainRun E p0 tol z0 zN ids clock niters).loss_arr.length
        = niters
    ∧ (trainRun E p0 tol z0 zN ids clock niters).nfe_arr.length
        = niters
    ∧ (trainRun E p0 tol z0 zN ids clock niters).time_arr.length
        = niters
    ∧ (trainRun E p0 tol z0 zN ids clock niters).itr_arr
        = List.range' 1 niters := by
  obtain ⟨h1, h2, h3, h4⟩ :=
    trainLoop_lengths E tol z0 zN ids clock niters 1 ⟨⟨p0, 0⟩⟩ []
  exact ⟨h1, h2, h3, h4,
    trainLoop_itr_arr E tol z0 zN ids clock niters 1 ⟨⟨p0, 0⟩⟩ []⟩

/-- C9 counterexample: two runs with identical configuration, data,
solver, and parameters but different ambient wall-clock readings produce
different duration sequences, so not all four recorded sequences are
identical between the two runs. -/
theorem claim9_counterexample :
    (trainRun extUnit () 1 [[1]] [[1]] [[0]] (fun _ => 0) 1).time_arr
      ≠ (trainRun extUnit () 1 [[1]] [[1]] [[0]]
          (fun n => if n = 3 then 5 else 0) 1).time_arr := by
  norm_num [trainRun, trainLoop, trainIter]

/-- C9 (amended): given identical configuration (solver, parameters,
tolerance, data, selector, iteration count), the iteration, loss, and
call-count sequences are identical between two runs; the duration
sequence is a function of the ambient wall-clock readings and may
differ. -/
theorem claim9_determinism_of_metrics {P : Type} (E : Externals P)
    (p0 : P) (tol : ℚ) (z0 zN : Mat) (ids : List (List ℕ))
    (c1 c2 : ℕ → ℚ) (niters : ℕ) :
    (trainRun E p0 tol z0 zN ids c1 niters).itr_arr
        = (trainRun E p0 tol z0 zN ids c2 niters).itr_arr
    ∧ (trainRun E p0 tol z0 zN ids c1 niters).loss_arr
        = (trainRun E p0 tol z0 zN ids c2 niters).loss_arr
    ∧ (trainRun E p0 tol z0 zN ids c1 niters).nfe_arr
        = (trainRun E p0 tol z0 zN ids c2 niters).nfe_arr :=
  trainLoop_clock_eq E tol z0 zN ids c1 c2 niters 1 ⟨⟨p0, 0⟩⟩ []

/-- C10: the call count recorded for iteration `k` is the counter value
read after both the backward pass and the optimizer step; starting from
the start-of-iteration reset it therefore counts the forward-integration
evaluations plus every evaluation made during gradient computation (the
reverse-time solve in adjoint mode). -/
theorem claim10_nfe_record_point {P : Type} (E : Externals P) (p0 : P)
    (tol : ℚ) (z0 zN : Mat) (ids : List (List ℕ)) (clock : ℕ → ℚ)
    (niters k : ℕ) (h : k < niters) :
    (trainRun E p0 tol z0 zN ids clock niters).nfe_arr.getD k 0
      = E.nevals (paramAt E z0 zN p0 k) z0 0 1 (some tol) (some tol)
        + E.nevalsBwd (paramAt E z0 zN p0 k) z0 :=
  trainLoop_nfe_arr_getD E tol z0 zN ids clock k niters 1 p0 0 [] h

/-- Witness for C10 at a concrete one-iteration run (2 forward solver
evaluations plus 1 backward evaluation recorded). -/
theorem claim10_witness :
    0 < 1
    ∧ (trainRun extUnit () 1 [[1]] [[1]] [[0]]
          (fun _ => 0) 1).nfe_arr.getD 0 0
        = extUnit.nevals (paramAt extUnit [[1]] [[1]] () 0) [[1]] 0 1
            (some 1) (some 1)
          + extUnit.nevalsBwd (paramAt extUnit [[1]] [[1]] () 0) [[1]] :=
  ⟨Nat.zero_lt_one,
    claim10_nfe_record_point extUnit () 1 [[1]] [[1]] [[0]]
      (fun _ => 0) 1 0 Nat.zero_lt_one⟩

end SonodeParity
